import Mathlib

/-!
Verification of the health-expenditure dashboard (src/app2.py).

The file shallowly embeds the data-bearing logic of the script: the
workbook loader, the wide-to-long melt transformation with the
four-digit year extraction, the country filter, and the data
preparation of the three chart views.  Numeric cells are modelled as
rationals, tables as lists of rows.
-/

namespace HealthExp

/-! ## Year extraction (app2.py line 53)

The source line is `yoy_long['Year'].str.extract(r'(\d{4})').astype(int)`:
scan the label left to right and return the first four consecutive digit
characters, then read them as a decimal integer.
-/

/-- The list starts with four digit characters: the window test of the
regular-expression fragment matching four digits. -/
def ok4 : List Char → Bool
  | a :: b :: c :: d :: _ => a.isDigit && b.isDigit && c.isDigit && d.isDigit
  | _ => false

/-- First match of four consecutive digits, scanning left to right.
This is the semantics of `str.extract` with the pattern of app2.py line 53. -/
def extract4 : List Char → Option (List Char)
  | [] => none
  | a :: rest => if ok4 (a :: rest) then some ((a :: rest).take 4) else extract4 rest

/-- Numeric value of a digit character. -/
def digitVal (c : Char) : Nat := c.toNat - '0'.toNat

/-- Decimal reading of a digit list, the semantics of `astype(int)` on the
extracted group. -/
def digitsToNat (cs : List Char) : Nat := cs.foldl (fun a c => 10 * a + digitVal c) 0

/-- The string produced by `str.extract` on a label, when the pattern matches. -/
def extractStr (s : String) : Option String := (extract4 s.data).map String.mk

/-- The integer produced by `str.extract(...).astype(int)` on a label;
`none` models the raising behaviour when the pattern does not match. -/
def extractYearNat (s : String) : Option Nat := (extract4 s.data).map digitsToNat

/-- The year assigned to a label whose extraction succeeds. -/
def yearOf (s : String) : Nat := (extractYearNat s).getD 0

/-! ## Maximal digit runs of a label

Used to state the specification sentence about labels "containing exactly
one 4-digit run".  `digitRunsF` is fuel-indexed so that it is structurally
recursive and evaluates inside the kernel; `digitRuns` instantiates the
fuel with the length of the list, which always suffices.
-/

/-- Fuel-indexed computation of the maximal runs of digit characters. -/
def digitRunsF : Nat → List Char → List (List Char)
  | 0, _ => []
  | _ + 1, [] => []
  | fuel + 1, c :: cs =>
    if c.isDigit then
      (c :: cs.takeWhile Char.isDigit) :: digitRunsF fuel (cs.dropWhile Char.isDigit)
    else
      digitRunsF fuel cs

/-- The maximal runs of digit characters of a character list, in order. -/
def digitRuns (cs : List Char) : List (List Char) := digitRunsF cs.length cs

/-! ## Substring test (the `'YoY' in col` checks of app2.py) -/

/-- Whether `pat` occurs as a contiguous sublist. -/
def containsSub (pat : List Char) : List Char → Bool
  | [] => pat.isEmpty
  | c :: rest => pat.isPrefixOf (c :: rest) || containsSub pat rest

/-- The membership test `'YoY' in col` used to select value columns. -/
def containsYoY (s : String) : Bool := containsSub ['Y', 'o', 'Y'] s.data

/-! ## The wide and long tables (spec section 3, app2.py lines 36-55)

A wide table has the two identifier columns `Country Name` and
`Country Code` followed by one value column per year; a row holds the two
identifiers and the list of values, aligned positionally with
`yearCols`.  Cells are rationals.
-/

/-- One row of the wide table. -/
structure Row where
  countryName : String
  countryCode : String
  values : List ℚ
deriving DecidableEq, Repr

/-- The wide table: value-column labels and the rows. -/
structure WTable where
  yearCols : List String
  rows : List Row
deriving DecidableEq, Repr

/-- The full column list of the underlying dataframe, identifiers first. -/
def allCols (t : WTable) : List String :=
  "Country Name" :: "Country Code" :: t.yearCols

/-- One row of the melted (long) table before year parsing: the label
column `Year` still holds the original column label. -/
structure MeltRow where
  countryName : String
  countryCode : String
  label : String
  value : ℚ
deriving DecidableEq, Repr

/-- One row of the long table after year parsing. -/
structure LongRow where
  countryName : String
  countryCode : String
  year : Nat
  value : ℚ
deriving DecidableEq, Repr

/-- The melt row of wide row `r` for the column labelled `c` at position `j`. -/
def mkMelt (c : String) (j : Nat) (r : Row) : MeltRow :=
  ⟨r.countryName, r.countryCode, c, r.values.getD j 0⟩

/-- The long row of wide row `r` for the column labelled `c` at position `j`. -/
def mkLong (c : String) (j : Nat) (r : Row) : LongRow :=
  ⟨r.countryName, r.countryCode, yearOf c, r.values.getD j 0⟩

/-- `pd.melt` with `id_vars = ['Country Name', 'Country Code']`
(app2.py lines 45-50): one block of rows per pivoted column, blocks in
column order, `j` is the position of the first remaining column. -/
def meltRowsFrom (rows : List Row) : Nat → List String → List MeltRow
  | _, [] => []
  | j, c :: cs => rows.map (mkMelt c j) ++ meltRowsFrom rows (j + 1) cs

/-- The long table after year parsing, same layout as `meltRowsFrom`. -/
def meltFrom (rows : List Row) : Nat → List String → List LongRow
  | _, [] => []
  | j, c :: cs => rows.map (mkLong c j) ++ meltFrom rows (j + 1) cs

/-- The long table derived from a wide table when every label parses. -/
def longTable (t : WTable) : List LongRow := meltFrom t.rows 0 t.yearCols

/-- Elementwise year parsing of the melted `Year` column
(app2.py line 53); `none` models the raise when some label has no
four-digit match. -/
def extractLong : List MeltRow → Option (List LongRow)
  | [] => some []
  | m :: ms =>
    match extractYearNat m.label, extractLong ms with
    | some y, some ls => some (⟨m.countryName, m.countryCode, y, m.value⟩ :: ls)
    | _, _ => none

/-- `process_data` (app2.py lines 36-55): identity-copy the wide table,
melt it, parse the years.  The first component of the result is the
value of `yoy_change`, the copy that is returned as the wide table. -/
def process_data (t : WTable) : Option (WTable × List LongRow) :=
  (extractLong (meltRowsFrom t.rows 0 t.yearCols)).map (fun l => (t, l))

/-! ## Country filter (app2.py lines 89-94) -/

/-- The filter step of `display_results`: an empty selection leaves both
tables unchanged, a non-empty selection keeps the rows whose
`Country Name` is in the selection (`isin`, exact match). -/
def filterTables (sel : List String) (w : WTable) (l : List LongRow) :
    WTable × List LongRow :=
  if sel = [] then (w, l)
  else
    (⟨w.yearCols, w.rows.filter (fun r => decide (r.countryName ∈ sel))⟩,
     l.filter (fun r => decide (r.countryName ∈ sel)))

/-! ## Chart and table-view preparation (app2.py lines 57-198) -/

/-- The value columns selected by the `'YoY' in col` comprehensions over
the dataframe columns (app2.py lines 66-67, 141, 172). -/
def yoyColsOf (t : WTable) : List String := (allCols t).filter containsYoY

/-- Positions (within `yearCols`) of the columns whose label passes the
`'YoY' in col` test, starting from position `j`. -/
def yoyIdxFrom : Nat → List String → List Nat
  | _, [] => []
  | j, c :: cs =>
    if containsYoY c then j :: yoyIdxFrom (j + 1) cs else yoyIdxFrom (j + 1) cs

/-- Positions of the YoY value columns of a wide table. -/
def yoyIdx (t : WTable) : List Nat := yoyIdxFrom 0 t.yearCols

/-- The table view of `display_results` (app2.py lines 65-74): the wide
table is shown unchanged and the listed columns receive the one-decimal
percent format and the diverging colour gradient. -/
def display_table_view (yoy_change : WTable) : WTable × List String :=
  (yoy_change, yoyColsOf yoy_change)

/-- A chart call either surfaces a warning or draws a chart from the
prepared data. -/
inductive ChartOut (α : Type) where
  | warning
  | chart (data : α)
deriving DecidableEq, Repr

/-- `plot_yoy_line_chart` (app2.py lines 105-131): warn on empty data,
otherwise chart the long rows as given. -/
def plot_yoy_line_chart (data : List LongRow) : ChartOut (List LongRow) :=
  if data.length = 0 then ChartOut.warning else ChartOut.chart data

/-- `plot_yoy_heatmap` (app2.py lines 133-162): warn on empty data,
otherwise chart one row per country holding the YoY column values. -/
def plot_yoy_heatmap (data : WTable) : ChartOut (List (String × List ℚ)) :=
  if data.rows.length = 0 then ChartOut.warning
  else
    ChartOut.chart
      (data.rows.map (fun r =>
        (r.countryName, (yoyIdx data).map (fun k => r.values.getD k 0))))

/-- The `mean(axis=1)` over the YoY columns of one row
(app2.py line 174). -/
def rowMeanYoY (t : WTable) (r : Row) : ℚ :=
  (((yoyIdx t).map (fun k => r.values.getD k 0)).sum) / ((yoyIdx t).length : ℚ)

/-- Descending order on the averaged value, the `ascending=False` sort key
of app2.py line 176. -/
def meanGE (a b : String × ℚ) : Prop := b.2 ≤ a.2

instance : DecidableRel meanGE := fun a b => inferInstanceAs (Decidable (b.2 ≤ a.2))

instance : IsTotal (String × ℚ) meanGE := ⟨fun a b => le_total b.2 a.2⟩

instance : IsTrans (String × ℚ) meanGE := ⟨fun _ _ _ h1 h2 => le_trans h2 h1⟩

/-- The bar-chart data: one `(country, average)` pair per row, sorted
descending on the average (app2.py lines 169-176). -/
def avgBarData (t : WTable) : List (String × ℚ) :=
  List.insertionSort meanGE (t.rows.map (fun r => (r.countryName, rowMeanYoY t r)))

/-- `plot_avg_bar_chart` (app2.py lines 164-198): warn on empty data,
otherwise compute the averages on a copy of the input and chart them. -/
def plot_avg_bar_chart (data : WTable) : ChartOut (List (String × ℚ)) :=
  if data.rows.length = 0 then ChartOut.warning
  else
    let avg_data := data
    ChartOut.chart (avgBarData avg_data)

/-! ## State-passing views of the rendering calls

Each renderer is also given as a function returning the post-call value
of the table it received together with its output, making the absence of
caller-visible mutation part of the translation: the only in-place update
of the script, the column insertion of app2.py line 174, is applied to
the copy taken at line 170, so every caller argument is returned as it
was passed.
-/

/-- Line chart with the post-call value of its argument. -/
def plot_yoy_line_chart_st (data : List LongRow) :
    List LongRow × ChartOut (List LongRow) :=
  (data, plot_yoy_line_chart data)

/-- Heatmap with the post-call value of its argument. -/
def plot_yoy_heatmap_st (data : WTable) :
    WTable × ChartOut (List (String × List ℚ)) :=
  (data, plot_yoy_heatmap data)

/-- Bar chart with the post-call value of its argument. -/
def plot_avg_bar_chart_st (data : WTable) :
    WTable × ChartOut (List (String × ℚ)) :=
  (data, plot_avg_bar_chart data)

/-! ## Loader (app2.py lines 16-33) -/

/-- An untyped spreadsheet cell. -/
inductive Cell where
  | str (s : String)
  | num (q : ℚ)
deriving DecidableEq, Repr

/-- An untyped sheet as read by `pd.read_excel`: a header of column
labels and the cell rows.  No shape constraint is imposed. -/
structure Sheet where
  header : List String
  cells : List (List Cell)
deriving DecidableEq, Repr

/-- A workbook: the named sheets, in sheet order, names unique as in an
Excel file. -/
structure Workbook where
  sheets : List (String × Sheet)
deriving DecidableEq, Repr

/-- Result of `load_data`: no file was supplied, the required sheet is
missing (the `st.error` branch), or the sheet was found. -/
inductive LoadResult where
  | noFile
  | missingSheet
  | loaded (s : Sheet)
deriving DecidableEq, Repr

/-- `load_data` (app2.py lines 16-33): `None` input yields no data and no
error; otherwise the sheet named `YoY_Health_Expenditure` is returned if
present and `MissingSheetError` is signalled if not. -/
def load_data : Option Workbook → LoadResult
  | none => LoadResult.noFile
  | some wb =>
    match wb.sheets.lookup "YoY_Health_Expenditure" with
    | some s => LoadResult.loaded s
    | none => LoadResult.missingSheet

/-- Typed view of a sheet as a wide table: the bridge between the untyped
sheet and the dataframe shape assumed by `process_data`.  Failure models
the downstream raise of `pd.melt` or `astype` on a malformed sheet. -/
def sheetToWide (s : Sheet) : Option WTable :=
  match s.header with
  | "Country Name" :: "Country Code" :: ycols =>
    (s.cells.mapM (fun row =>
      match row with
      | Cell.str n :: Cell.str c :: vs =>
        (vs.mapM (fun cell =>
          match cell with
          | Cell.num q => some q
          | Cell.str _ => none)).map (Row.mk n c)
      | _ => none)).map (fun rs => WTable.mk ycols rs)
  | _ => none

/-- The main flow of the script (app2.py lines 205-212): load, then
process and display only when data was produced.  `none` means no table
and no chart output is rendered. -/
def runApp (input : Option Workbook) : Option (WTable × List LongRow) :=
  match load_data input with
  | LoadResult.loaded s => (sheetToWide s).bind process_data
  | _ => none

/-! ## The built-in sample data (app2.py lines 217-230) -/

/-- The literal sample table of the script. -/
def sample_data : WTable :=
  ⟨["2006 YoY (%)", "2007 YoY (%)", "2008 YoY (%)", "2009 YoY (%)",
    "2010 YoY (%)", "2011 YoY (%)", "2012 YoY (%)", "2013 YoY (%)",
    "2014 YoY (%)", "2015 YoY (%)"],
   [⟨"Indonesia", "IDN",
     [mkRat 97 10, mkRat 137 10, mkRat (-23) 10, mkRat (-3) 10, mkRat (-326) 10, mkRat (-9) 10, mkRat 121 10, mkRat 81 10, mkRat 176 10, mkRat 182 10]⟩,
    ⟨"Philippines", "PHL",
     [mkRat (-30) 10, mkRat (-24) 10, mkRat (-38) 10, mkRat 17 10, mkRat 41 10, mkRat (-173) 10, mkRat (-4) 10, mkRat (-3) 10, mkRat 301 10, mkRat 104 10]⟩,
    ⟨"Viet Nam", "VNM",
     [mkRat (-19) 10, mkRat (-20) 10, mkRat 67 10, mkRat (-38) 10, mkRat 93 10, mkRat (-23) 10, mkRat 83 10, mkRat 124 10, mkRat (-109) 10, mkRat (-4) 10]⟩,
    ⟨"Myanmar", "MMR",
     [mkRat 639 10, mkRat (-159) 10, mkRat (-193) 10, mkRat 69 10, mkRat 136 10, mkRat 215 10, mkRat 440 10, mkRat 96 10, mkRat 281 10, mkRat (-91) 10]⟩,
    ⟨"Cambodia", "KHM",
     [mkRat (-120) 10, mkRat 263 10, mkRat (-216) 10, mkRat 34 10, mkRat 228 10, mkRat (-136) 10, mkRat 136 10, mkRat 31 10, mkRat (-74) 10, mkRat 173 10]⟩]⟩

/-- The row-wise arithmetic mean over all year columns, written from the
specification sentence it is compared against ("arithmetic mean of that
country's YoY values across all year columns"). -/
def specAvgAllYearCols (t : WTable) (r : Row) : ℚ :=
  r.values.sum / (t.yearCols.length : ℚ)

/-! ## Concrete fixtures used by the witness theorems -/

/-- A one-row, one-column wide table. -/
def tinyTable : WTable := ⟨["2006 YoY (%)"], [⟨"A", "AAA", [mkRat 1 1]⟩]⟩

/-- A table with a second year column whose label lacks `YoY`. -/
def extraColTable : WTable :=
  ⟨["2006 YoY (%)", "2007 note"], [⟨"A", "AAA", [mkRat 1 1, mkRat 2 1]⟩]⟩

/-- A workbook without the required sheet. -/
def wbOther : Workbook := ⟨[("Sheet1", ⟨["A"], []⟩)]⟩

/-- A workbook whose required sheet is present but malformed: it has
neither identifier column and no year column. -/
def wbBad : Workbook :=
  ⟨[("YoY_Health_Expenditure", ⟨["Foo"], [[Cell.num (mkRat 1 1)]]⟩)]⟩

/-! ## Lemmas about the four-digit scan -/

lemma ok4_false_first {a : Char} (l : List Char) (h : a.isDigit = false) :
    ok4 (a :: l) = false := by
  match l with
  | [] => rfl
  | [_] => rfl
  | [_, _] => rfl
  | _ :: _ :: _ :: _ => simp [ok4, h]

lemma ok4_false_second {b : Char} (a : Char) (l : List Char) (h : b.isDigit = false) :
    ok4 (a :: b :: l) = false := by
  match l with
  | [] => rfl
  | [_] => rfl
  | _ :: _ :: _ => simp [ok4, h]

lemma ok4_false_third {c : Char} (a b : Char) (l : List Char) (h : c.isDigit = false) :
    ok4 (a :: b :: c :: l) = false := by
  match l with
  | [] => rfl
  | _ :: _ => simp [ok4, h]

lemma ok4_false_fourth {d : Char} (a b c : Char) (l : List Char) (h : d.isDigit = false) :
    ok4 (a :: b :: c :: d :: l) = false := by
  simp [ok4, h]

lemma extract4_cons_of_not (a : Char) (l : List Char) (h : ok4 (a :: l) = false) :
    extract4 (a :: l) = extract4 l := by
  simp [extract4, h]

lemma length_dropWhile_le (p : Char → Bool) (l : List Char) :
    (l.dropWhile p).length ≤ l.length := by
  induction l with
  | nil => simp
  | cons c cs ih =>
    by_cases h : p c
    · rw [List.dropWhile_cons_of_pos h]
      exact le_trans ih (Nat.le_succ _)
    · rw [List.dropWhile_cons_of_neg h]

lemma head_dropWhile_false (p : Char → Bool) :
    ∀ (l : List Char), ∀ x ∈ (l.dropWhile p).head?, p x = false := by
  intro l
  induction l with
  | nil => intro x hx; simp [List.dropWhile] at hx
  | cons c cs ih =>
    intro x hx
    by_cases h : p c
    · rw [List.dropWhile_cons_of_pos h] at hx
      exact ih x hx
    · rw [List.dropWhile_cons_of_neg h] at hx
      simp at hx
      subst hx
      exact Bool.eq_false_iff.mpr h

/-- Scanning skips a block of at most three digits that is followed by a
non-digit (or by nothing). -/
lemma extract4_skip (ds rest : List Char) (hds : ∀ c ∈ ds, c.isDigit = true)
    (hlen : ds.length ≤ 3)
    (hrest : ∀ x ∈ rest.head?, x.isDigit = false) :
    extract4 (ds ++ rest) = extract4 rest := by
  match ds, hlen with
  | [], _ => rfl
  | [a], _ =>
    match rest with
    | [] => simp [extract4, ok4]
    | x :: t =>
      have hx : x.isDigit = false := hrest x (by simp)
      exact extract4_cons_of_not _ _ (ok4_false_second _ _ hx)
  | [a, b], _ =>
    match rest with
    | [] => simp [extract4, ok4]
    | x :: t =>
      have hx : x.isDigit = false := hrest x (by simp)
      rw [List.cons_append, List.cons_append, List.nil_append]
      rw [extract4_cons_of_not _ _ (ok4_false_third _ _ _ hx)]
      exact extract4_cons_of_not _ _ (ok4_false_second _ _ hx)
  | [a, b, c], _ =>
    match rest with
    | [] => simp [extract4, ok4]
    | x :: t =>
      have hx : x.isDigit = false := hrest x (by simp)
      rw [List.cons_append, List.cons_append, List.cons_append, List.nil_append]
      rw [extract4_cons_of_not _ _ (ok4_false_fourth _ _ _ _ hx)]
      rw [extract4_cons_of_not _ _ (ok4_false_third _ _ _ hx)]
      exact extract4_cons_of_not _ _ (ok4_false_second _ _ hx)
  | _ :: _ :: _ :: _ :: _, hlen => simp at hlen

lemma digitRunsF_all_digit :
    ∀ (fuel : Nat) (cs : List Char), ∀ r ∈ digitRunsF fuel cs,
      ∀ c ∈ r, c.isDigit = true := by
  intro fuel
  induction fuel with
  | zero => intro cs r hr; simp [digitRunsF] at hr
  | succ fuel ih =>
    intro cs r hr c hc
    match cs with
    | [] => simp [digitRunsF] at hr
    | d :: rest =>
      by_cases hd : d.isDigit
      · rw [digitRunsF, if_pos hd] at hr
        rcases List.mem_cons.mp hr with h | h
        · subst h
          rcases List.mem_cons.mp hc with h | h
          · subst h; exact hd
          · exact List.mem_takeWhile_imp h
        · exact ih _ r h c hc
      · rw [digitRunsF, if_neg hd] at hr
        exact ih _ r hr c hc

/-- The scan finds exactly the first four characters of the first maximal
digit run of length at least four, and fails when there is none. -/
lemma extract4_eq_firstLong :
    ∀ (fuel : Nat) (cs : List Char), cs.length ≤ fuel →
    extract4 cs =
      ((digitRunsF fuel cs).find? (fun r => decide (4 ≤ r.length))).map
        (fun r => r.take 4) := by
  intro fuel
  induction fuel with
  | zero =>
    intro cs h
    have : cs = [] := List.length_eq_zero.mp (Nat.le_zero.mp h)
    subst this
    rfl
  | succ fuel ih =>
    intro cs h
    match cs with
    | [] => rfl
    | c :: rest =>
      by_cases hd : c.isDigit
      · have hsplit : rest.takeWhile Char.isDigit ++ rest.dropWhile Char.isDigit = rest :=
          List.takeWhile_append_dropWhile _ _
        rw [digitRunsF, if_pos hd]
        by_cases h4 : 4 ≤ (c :: rest.takeWhile Char.isDigit).length
        · rw [List.find?_cons_of_pos _ (by simpa using h4)]
          have htw : ∃ b d e tw2, rest.takeWhile Char.isDigit = b :: d :: e :: tw2 := by
            match hlen : rest.takeWhile Char.isDigit with
            | [] => rw [hlen] at h4; simp at h4
            | [b] => rw [hlen] at h4; simp at h4
            | [b, d] => rw [hlen] at h4; simp at h4
            | b :: d :: e :: tw2 => exact ⟨b, d, e, tw2, rfl⟩
          obtain ⟨b, d, e, tw2, htw⟩ := htw
          have hb : b.isDigit = true := List.mem_takeWhile_imp (by rw [htw]; simp)
          have hdd : d.isDigit = true := List.mem_takeWhile_imp (by rw [htw]; simp)
          have he : e.isDigit = true := List.mem_takeWhile_imp (by rw [htw]; simp)
          have hrest : rest = b :: d :: e :: (tw2 ++ rest.dropWhile Char.isDigit) := by
            conv_lhs => rw [← hsplit]
            rw [htw]
            simp
          have hok : ok4 (c :: rest) = true := by
            rw [hrest]
            simp [ok4, hd, hb, hdd, he]
          rw [extract4, if_pos hok]
          have hcr : c :: rest =
              (c :: rest.takeWhile Char.isDigit) ++ rest.dropWhile Char.isDigit := by
            rw [List.cons_append, hsplit]
          rw [hcr]
          simp only [Option.map_some']
          rw [List.take_append_eq_append_take, Nat.sub_eq_zero_of_le h4,
            List.take_zero, List.append_nil]
        · rw [List.find?_cons_of_neg _ (by simpa using h4)]
          have hle3 : (c :: rest.takeWhile Char.isDigit).length ≤ 3 := by omega
          have hskip : extract4 (c :: rest) = extract4 (rest.dropWhile Char.isDigit) := by
            conv_lhs => rw [show c :: rest =
              (c :: rest.takeWhile Char.isDigit) ++ rest.dropWhile Char.isDigit by
                rw [List.cons_append, hsplit]]
            refine extract4_skip _ _ ?_ hle3 (head_dropWhile_false _ _)
            intro x hx
            rcases List.mem_cons.mp hx with hx | hx
            · subst hx; exact hd
            · exact List.mem_takeWhile_imp hx
          rw [hskip]
          refine ih _ ?_
          have h1 : (rest.dropWhile Char.isDigit).length ≤ rest.length :=
            length_dropWhile_le _ _
          simp at h
          omega
      · rw [digitRunsF, if_neg hd]
        rw [extract4_cons_of_not _ _ (ok4_false_first _ (Bool.eq_false_iff.mpr hd))]
        refine ih _ ?_
        simp at h
        omega

/-! ## Lemmas about the melt transformation -/

lemma meltFrom_length (rows : List Row) :
    ∀ (cs : List String) (j : Nat),
      (meltFrom rows j cs).length = cs.length * rows.length := by
  intro cs
  induction cs with
  | nil => intro j; simp [meltFrom]
  | cons c cs ih =>
    intro j
    simp [meltFrom, ih (j + 1), Nat.succ_mul, Nat.add_comm]

lemma meltFrom_mem_year (rows : List Row) :
    ∀ (cs : List String) (j : Nat), ∀ lr ∈ meltFrom rows j cs,
      lr.year ∈ cs.map yearOf := by
  intro cs
  induction cs with
  | nil => intro j lr h; simp [meltFrom] at h
  | cons c cs ih =>
    intro j lr h
    rw [meltFrom] at h
    rcases List.mem_append.mp h with h | h
    · obtain ⟨r, _, rfl⟩ := List.mem_map.mp h
      simp [mkLong]
    · simp only [List.map_cons, List.mem_cons]
      exact Or.inr (ih (j + 1) lr h)

lemma meltFrom_pairs_nodup (rows : List Row)
    (hnames : (rows.map Row.countryName).Nodup) :
    ∀ (cs : List String) (j : Nat), (cs.map yearOf).Nodup →
    ((meltFrom rows j cs).map (fun lr => (lr.countryName, lr.year))).Nodup := by
  intro cs
  induction cs with
  | nil => intro j _; simp [meltFrom]
  | cons c cs ih =>
    intro j hy
    rw [List.map_cons, List.nodup_cons] at hy
    rw [meltFrom, List.map_append]
    rw [List.nodup_append]
    refine ⟨?_, ih (j + 1) hy.2, ?_⟩
    · rw [List.map_map]
      have : ((fun lr => (lr.countryName, lr.year)) ∘ mkLong c j) =
          (fun n => (n, yearOf c)) ∘ Row.countryName := by
        funext r
        simp [mkLong]
      rw [this, ← List.map_map]
      exact hnames.map (fun a b h => by simpa using congrArg Prod.fst h)
    · intro p hp hp2
      rw [List.map_map] at hp
      obtain ⟨r, _, rfl⟩ := List.mem_map.mp hp
      obtain ⟨lr, hlr, hlr2⟩ := List.mem_map.mp hp2
      have hyr : lr.year ∈ cs.map yearOf := meltFrom_mem_year rows cs (j + 1) lr hlr
      have : yearOf c = lr.year := by
        have := congrArg Prod.snd hlr2
        simpa [mkLong] using this.symm
      rw [this] at hy
      exact hy.1 hyr

lemma meltFrom_mem (rows : List Row) (r : Row) (hr : r ∈ rows) :
    ∀ (cs : List String) (j k : Nat) (h : k < cs.length),
    mkLong (cs.get ⟨k, h⟩) (j + k) r ∈ meltFrom rows j cs := by
  intro cs
  induction cs with
  | nil => intro j k h; simp at h
  | cons c cs ih =>
    intro j k h
    match k with
    | 0 =>
      rw [meltFrom]
      exact List.mem_append_left _ (List.mem_map_of_mem _ hr)
    | k + 1 =>
      rw [meltFrom]
      refine List.mem_append_right _ ?_
      have hk : k < cs.length := by simpa using h
      have := ih (j + 1) k hk
      have harith : j + 1 + k = j + (k + 1) := by omega
      rw [harith] at this
      exact this

lemma extractLong_append (ms1 ms2 : List MeltRow) (l1 l2 : List LongRow)
    (h1 : extractLong ms1 = some l1) (h2 : extractLong ms2 = some l2) :
    extractLong (ms1 ++ ms2) = some (l1 ++ l2) := by
  induction ms1 generalizing l1 with
  | nil =>
    rw [extractLong] at h1
    cases h1
    simpa using h2
  | cons m ms ih =>
    rw [extractLong] at h1
    match hy : extractYearNat m.label, hrec : extractLong ms with
    | some y, some ls =>
      rw [hy, hrec] at h1
      cases h1
      rw [List.cons_append, extractLong, hy, ih ls hrec]
      rfl
    | some y, none => rw [hy, hrec] at h1; cases h1
    | none, some ls => rw [hy, hrec] at h1; cases h1
    | none, none => rw [hy, hrec] at h1; cases h1

lemma extractLong_block (rows : List Row) (c : String) (j : Nat)
    (hc : extractYearNat c = some (yearOf c)) :
    extractLong (rows.map (mkMelt c j)) = some (rows.map (mkLong c j)) := by
  induction rows with
  | nil => rfl
  | cons r rows ih =>
    rw [List.map_cons, extractLong]
    rw [show (mkMelt c j r).label = c from rfl, hc, ih]
    rfl

lemma extractYearNat_eq_some_yearOf (c : String)
    (h : (extractYearNat c).isSome = true) :
    extractYearNat c = some (yearOf c) := by
  rw [yearOf]
  match hc : extractYearNat c with
  | some y => rfl
  | none => rw [hc] at h; simp at h

lemma extractLong_meltRowsFrom (rows : List Row) :
    ∀ (cs : List String) (j : Nat), (∀ c ∈ cs, (extractYearNat c).isSome = true) →
    extractLong (meltRowsFrom rows j cs) = some (meltFrom rows j cs) := by
  intro cs
  induction cs with
  | nil => intro j _; rfl
  | cons c cs ih =>
    intro j hext
    rw [meltRowsFrom, meltFrom]
    exact extractLong_append _ _ _ _
      (extractLong_block rows c j
        (extractYearNat_eq_some_yearOf c (hext c (by simp))))
      (ih (j + 1) (fun d hd => hext d (by simp [hd])))

/-- When every year label parses, `process_data` succeeds and returns the
input table together with the melted long table. -/
lemma process_data_eq (t : WTable)
    (hext : ∀ c ∈ t.yearCols, (extractYearNat c).isSome = true) :
    process_data t = some (t, longTable t) := by
  rw [process_data, extractLong_meltRowsFrom t.rows t.yearCols 0 hext]
  rfl

/-! ## Lemmas about the YoY column selection and the loader -/

lemma mem_yoyIdxFrom :
    ∀ (cs : List String) (j m : Nat), m ∈ yoyIdxFrom j cs →
      ∃ i, ∃ h : i < cs.length, m = j + i ∧ containsYoY (cs.get ⟨i, h⟩) = true := by
  intro cs
  induction cs with
  | nil => intro j m h; simp [yoyIdxFrom] at h
  | cons c cs ih =>
    intro j m hm
    rw [yoyIdxFrom] at hm
    by_cases hc : containsYoY c
    · rw [if_pos hc] at hm
      rcases List.mem_cons.mp hm with h | h
      · exact ⟨0, Nat.succ_pos _, by omega, hc⟩
      · obtain ⟨i, hi, hmi, hci⟩ := ih (j + 1) m h
        exact ⟨i + 1, by simp only [List.length_cons]; omega, by omega, hci⟩
    · rw [if_neg hc] at hm
      obtain ⟨i, hi, hmi, hci⟩ := ih (j + 1) m hm
      exact ⟨i + 1, by simp only [List.length_cons]; omega, by omega, hci⟩

lemma yoyIdxFrom_length_all :
    ∀ (cs : List String) (j : Nat), (∀ c ∈ cs, containsYoY c = true) →
      (yoyIdxFrom j cs).length = cs.length := by
  intro cs
  induction cs with
  | nil => intro j _; rfl
  | cons c cs ih =>
    intro j hall
    rw [yoyIdxFrom, if_pos (hall c (by simp))]
    simp only [List.length_cons]
    rw [ih (j + 1) (fun d hd => hall d (by simp [hd]))]

lemma yoyIdxFrom_map_getD (w : List ℚ) :
    ∀ (cs : List String) (j : Nat), (∀ c ∈ cs, containsYoY c = true) →
      w.length = j + cs.length →
      (yoyIdxFrom j cs).map (fun k => w.getD k 0) = w.drop j := by
  intro cs
  induction cs with
  | nil =>
    intro j _ hlen
    have hj : w.length ≤ j := by simp at hlen; omega
    rw [List.drop_eq_nil_of_le hj]
    rfl
  | cons c cs ih =>
    intro j hall hlen
    have hj : j < w.length := by simp at hlen; omega
    rw [yoyIdxFrom, if_pos (hall c (by simp)), List.map_cons]
    rw [ih (j + 1) (fun d hd => hall d (by simp [hd])) (by simp at hlen ⊢; omega)]
    rw [List.drop_eq_getElem_cons hj]
    congr 1
    rw [List.getD_eq_getElem?_getD]
    rw [List.getElem?_eq_getElem hj]
    rfl

/-- On a table whose year columns all carry the `YoY` marker, the charted
per-row mean over the YoY columns is the mean over all year columns. -/
lemma rowMeanYoY_eq_spec (t : WTable) (r : Row)
    (hall : ∀ c ∈ t.yearCols, containsYoY c = true)
    (hlen : r.values.length = t.yearCols.length) :
    rowMeanYoY t r = specAvgAllYearCols t r := by
  rw [rowMeanYoY, specAvgAllYearCols, yoyIdx]
  rw [yoyIdxFrom_map_getD r.values t.yearCols 0 hall (by omega)]
  rw [List.drop_zero]
  rw [yoyIdxFrom_length_all t.yearCols 0 hall]

lemma countP_mem_eq_length (names sel : List String) (hnd : names.Nodup)
    (hsel : sel.Nodup) (hsub : sel ⊆ names) :
    names.countP (fun n => decide (n ∈ sel)) = sel.length := by
  rw [List.countP_eq_length_filter]
  have hperm : (names.filter (fun n => decide (n ∈ sel))).Perm sel := by
    rw [List.perm_ext_iff_of_nodup (hnd.filter _) hsel]
    intro a
    rw [List.mem_filter]
    simp only [decide_eq_true_eq]
    constructor
    · rintro ⟨_, h2⟩; exact h2
    · intro ha; exact ⟨hsub ha, ha⟩
  exact hperm.length_eq

lemma lookup_eq_none_of_all_ne (key : String) :
    ∀ (l : List (String × Sheet)), (∀ p ∈ l, p.1 ≠ key) → l.lookup key = none := by
  intro l
  induction l with
  | nil => intro _; rfl
  | cons p l ih =>
    intro h
    obtain ⟨k, v⟩ := p
    have hk : (key == k) = false :=
      beq_eq_false_iff_ne.mpr (Ne.symm (h (k, v) (by simp)))
    simp only [List.lookup, hk]
    exact ih (fun q hq => h q (by simp [hq]))

/-! ## The claims -/

/-- C1: for a wide table with unique country names, pairwise distinct
column years and parseable labels, `process_data` returns a long table
with exactly R times Y rows, without duplicate (country, year) pairs, and
every (country, year, value) triple of the wide table appears exactly
once in it. -/
theorem C1_melt_shape (t : WTable)
    (hext : ∀ c ∈ t.yearCols, (extractYearNat c).isSome = true)
    (hnames : (t.rows.map Row.countryName).Nodup)
    (hyears : (t.yearCols.map yearOf).Nodup) :
    process_data t = some (t, longTable t) ∧
    (longTable t).length = t.rows.length * t.yearCols.length ∧
    ((longTable t).map (fun lr => (lr.countryName, lr.year))).Nodup ∧
    ∀ r ∈ t.rows, ∀ (j : Nat) (h : j < t.yearCols.length),
      (longTable t).count (mkLong (t.yearCols.get ⟨j, h⟩) j r) = 1 := by
  refine ⟨process_data_eq t hext, ?_, ?_, ?_⟩
  · rw [longTable, meltFrom_length]
    exact Nat.mul_comm _ _
  · exact meltFrom_pairs_nodup t.rows hnames t.yearCols 0 hyears
  · intro r hr j h
    have hmem := meltFrom_mem t.rows r hr t.yearCols 0 j h
    rw [Nat.zero_add] at hmem
    have hnd : (longTable t).Nodup :=
      List.Nodup.of_map _ (meltFrom_pairs_nodup t.rows hnames t.yearCols 0 hyears)
    exact List.count_eq_one_of_mem hnd hmem

/-- Witness for C1 at the sample table. -/
theorem C1_witness :
    process_data sample_data = some (sample_data, longTable sample_data) ∧
    (longTable sample_data).length =
      sample_data.rows.length * sample_data.yearCols.length ∧
    ((longTable sample_data).map (fun lr => (lr.countryName, lr.year))).Nodup := by
  have h := C1_melt_shape sample_data (by decide) (by decide) (by decide)
  exact ⟨h.1, h.2.1, h.2.2.1⟩

/-- C2 as stated is false: the label `12345a2006` contains exactly one
maximal run of exactly four digits, namely `2006`, whose integer is 2006,
yet the extracted year is 1234 (the first four consecutive digits). -/
theorem C2_counterexample :
    (digitRuns "12345a2006".data).filter (fun t => decide (t.length = 4)) =
      [['2', '0', '0', '6']] ∧
    digitsToNat ['2', '0', '0', '6'] = 2006 ∧
    extractYearNat "12345a2006" = some 1234 ∧
    (1234 : Nat) ≠ 2006 := by
  decide

/-- C2 (amended): on every label whose first digit run of length at least
four has exactly four digits, extraction returns that run, is idempotent
on it, and yields its decimal integer as the year. -/
theorem C2_year_extraction_amended (s : String) (r : List Char)
    (h1 : (digitRuns s.data).find? (fun t => decide (4 ≤ t.length)) = some r)
    (h2 : r.length = 4) :
    extractStr s = some (String.mk r) ∧
    extractStr (String.mk r) = some (String.mk r) ∧
    extractYearNat s = some (digitsToNat r) := by
  have hmain := extract4_eq_firstLong s.data.length s.data le_rfl
  rw [show digitRunsF s.data.length s.data = digitRuns s.data from rfl, h1] at hmain
  simp only [Option.map_some'] at hmain
  rw [← h2, List.take_length] at hmain
  have hdig : ∀ c ∈ r, c.isDigit = true := by
    intro c hc
    exact digitRunsF_all_digit s.data.length s.data r
      (List.mem_of_find?_eq_some h1) c hc
  have hself : extract4 r = some r := by
    match r, h2 with
    | [a, b, c, d], _ =>
      have ha : a.isDigit = true := hdig a (by simp)
      have hb : b.isDigit = true := hdig b (by simp)
      have hc : c.isDigit = true := hdig c (by simp)
      have hd : d.isDigit = true := hdig d (by simp)
      simp [extract4, ok4, ha, hb, hc, hd]
  refine ⟨?_, ?_, ?_⟩
  · rw [extractStr, hmain, Option.map_some']
  · rw [extractStr]
    show (extract4 r).map String.mk = some (String.mk r)
    rw [hself, Option.map_some']
  · rw [extractYearNat, hmain, Option.map_some']

/-- Witness for the amended C2 at a well-formed sample label. -/
theorem C2_witness :
    ((digitRuns "2006 YoY (%)".data).find? (fun t => decide (4 ≤ t.length)) =
      some ['2', '0', '0', '6']) ∧
    (['2', '0', '0', '6'] : List Char).length = 4 ∧
    (extractStr "2006 YoY (%)" = some (String.mk ['2', '0', '0', '6']) ∧
     extractStr (String.mk ['2', '0', '0', '6']) =
       some (String.mk ['2', '0', '0', '6']) ∧
     extractYearNat "2006 YoY (%)" = some (digitsToNat ['2', '0', '0', '6'])) :=
  ⟨by decide, by decide,
   C2_year_extraction_amended "2006 YoY (%)" ['2', '0', '0', '6']
     (by decide) (by decide)⟩

/-- C3: an empty selection leaves both tables unchanged; a non-empty,
duplicate-free selection of known country names keeps exactly the rows of
both tables whose `Country Name` is selected, and the wide result has as
many rows as the selection. -/
theorem C3_country_filter (sel : List String) (w : WTable) (l : List LongRow)
    (hsel : sel.Nodup) (hsub : sel ⊆ w.rows.map Row.countryName)
    (hnames : (w.rows.map Row.countryName).Nodup) :
    (sel = [] → filterTables sel w l = (w, l)) ∧
    (sel ≠ [] →
      (filterTables sel w l).1.yearCols = w.yearCols ∧
      (∀ r, r ∈ (filterTables sel w l).1.rows ↔ r ∈ w.rows ∧ r.countryName ∈ sel) ∧
      (∀ x, x ∈ (filterTables sel w l).2 ↔ x ∈ l ∧ x.countryName ∈ sel) ∧
      (filterTables sel w l).1.rows.length = sel.length) := by
  constructor
  · intro h
    rw [filterTables, if_pos h]
  · intro h
    rw [filterTables, if_neg h]
    refine ⟨rfl, ?_, ?_, ?_⟩
    · intro r
      rw [List.mem_filter]
      simp
    · intro x
      rw [List.mem_filter]
      simp
    · show (w.rows.filter _).length = _
      rw [← List.countP_eq_length_filter]
      have hcp : w.rows.countP (fun r => decide (r.countryName ∈ sel)) =
          (w.rows.map Row.countryName).countP (fun n => decide (n ∈ sel)) := by
        rw [List.countP_map]
        rfl
      rw [hcp]
      exact countP_mem_eq_length _ sel hnames hsel hsub

/-- Witness for C3: a singleton selection and the empty selection on the
sample table. -/
theorem C3_witness :
    (filterTables ["Indonesia"] sample_data []).1.rows.length =
      (["Indonesia"] : List String).length ∧
    filterTables [] sample_data [] = (sample_data, ([] : List LongRow)) := by
  have h1 := C3_country_filter ["Indonesia"] sample_data []
    (by decide) (by decide) (by decide)
  have h2 := C3_country_filter [] sample_data []
    List.nodup_nil (List.nil_subset _) (by decide)
  exact ⟨(h1.2 (by decide)).2.2.2, h2.1 rfl⟩

/-- C4: on a wide table whose year columns all carry the `YoY` marker and
whose rows are aligned with the columns, the bar chart plots one pair per
country whose value is the row-wise arithmetic mean over all year
columns, sorted descending on that mean. -/
theorem C4_avg_bar_chart (t : WTable)
    (hall : ∀ c ∈ t.yearCols, containsYoY c = true)
    (hwf : ∀ r ∈ t.rows, r.values.length = t.yearCols.length) :
    (avgBarData t).Perm
      (t.rows.map (fun r => (r.countryName, specAvgAllYearCols t r))) ∧
    (avgBarData t).Sorted meanGE := by
  constructor
  · have hperm := List.perm_insertionSort meanGE
      (t.rows.map (fun r => (r.countryName, rowMeanYoY t r)))
    have heq : t.rows.map (fun r => (r.countryName, rowMeanYoY t r)) =
        t.rows.map (fun r => (r.countryName, specAvgAllYearCols t r)) :=
      List.map_congr_left (fun r hr => by rw [rowMeanYoY_eq_spec t r hall (hwf r hr)])
    rw [avgBarData]
    rw [heq] at hperm ⊢
    exact hperm
  · exact List.sorted_insertionSort meanGE _

unseal Rat.add Rat.mul Rat.inv Rat.sub in
/-- Witness for C4 at the sample table. -/
theorem C4_witness :
    (∀ c ∈ sample_data.yearCols, containsYoY c = true) ∧
    ((avgBarData sample_data).Perm
      (sample_data.rows.map
        (fun r => (r.countryName, specAvgAllYearCols sample_data r))) ∧
     (avgBarData sample_data).Sorted meanGE) :=
  ⟨by decide, C4_avg_bar_chart sample_data (by decide) (by decide)⟩

/-- C5: a workbook without a sheet named `YoY_Health_Expenditure` loads to
`MissingSheetError` with no table or chart output, and a missing file
loads to no data without an error. -/
theorem C5_missing_sheet (wb : Workbook)
    (h : ∀ p ∈ wb.sheets, p.1 ≠ "YoY_Health_Expenditure") :
    load_data (some wb) = LoadResult.missingSheet ∧
    runApp (some wb) = none ∧
    load_data none = LoadResult.noFile ∧
    runApp none = none := by
  have hl : wb.sheets.lookup "YoY_Health_Expenditure" = none :=
    lookup_eq_none_of_all_ne _ wb.sheets h
  refine ⟨?_, ?_, rfl, rfl⟩
  · rw [load_data, hl]
  · rw [runApp, load_data, hl]

/-- Witness for C5 at a one-sheet workbook without the required sheet. -/
theorem C5_witness :
    load_data (some wbOther) = LoadResult.missingSheet ∧
    runApp (some wbOther) = none ∧
    load_data none = LoadResult.noFile ∧
    runApp none = none :=
  C5_missing_sheet wbOther (by decide)

unseal Rat.add Rat.mul Rat.inv Rat.sub in
/-- C6 as stated is false: Indonesia's charted mean over the sample data
is exactly 4.33, which is not within rounding distance (half of one
hundredth) of the claimed 4.31. -/
theorem C6_counterexample :
    ("Indonesia", mkRat 433 100) ∈ avgBarData sample_data ∧
    (avgBarData sample_data).filter (fun p => p.1 == "Indonesia") =
      [("Indonesia", mkRat 433 100)] ∧
    ¬ |mkRat 433 100 - mkRat 431 100| < mkRat 1 200 := by
  decide

unseal Rat.add Rat.mul Rat.inv Rat.sub in
/-- C6 (amended): end to end on the sample data the long table has 50
rows, Myanmar's 2010 value is 13.6, and Indonesia's charted mean is
exactly 4.33. -/
theorem C6_sample_end_to_end :
    process_data sample_data = some (sample_data, longTable sample_data) ∧
    (longTable sample_data).length = 50 ∧
    LongRow.mk "Myanmar" "MMR" 2010 (mkRat 68 5) ∈ longTable sample_data ∧
    ("Indonesia", mkRat 433 100) ∈ avgBarData sample_data := by
  decide

/-- C7: on zero-row inputs each of the three chart functions draws no
chart and surfaces a warning. -/
theorem C7_empty_filter_warns (l : List LongRow) (w : WTable)
    (hl : l = []) (hw : w.rows = []) :
    plot_yoy_line_chart l = ChartOut.warning ∧
    plot_yoy_heatmap w = ChartOut.warning ∧
    plot_avg_bar_chart w = ChartOut.warning := by
  subst hl
  refine ⟨rfl, ?_, ?_⟩
  · simp [plot_yoy_heatmap, hw]
  · simp [plot_avg_bar_chart, hw]

/-- Witness for C7 at empty tables. -/
theorem C7_witness :
    plot_yoy_line_chart [] = ChartOut.warning ∧
    plot_yoy_heatmap ⟨["2006 YoY (%)"], []⟩ = ChartOut.warning ∧
    plot_avg_bar_chart ⟨["2006 YoY (%)"], []⟩ = ChartOut.warning :=
  C7_empty_filter_warns [] ⟨["2006 YoY (%)"], []⟩ rfl rfl

/-- C8: the wide table returned by `process_data` is its input (the
identity copy), and every rendering call returns the tables it received
unchanged. -/
theorem C8_no_mutation (t : WTable) (out : WTable × List LongRow)
    (w : WTable) (l : List LongRow)
    (h : process_data t = some out) :
    out.1 = t ∧
    (display_table_view w).1 = w ∧
    (plot_yoy_line_chart_st l).1 = l ∧
    (plot_yoy_heatmap_st w).1 = w ∧
    (plot_avg_bar_chart_st w).1 = w := by
  refine ⟨?_, rfl, rfl, rfl, rfl⟩
  rw [process_data] at h
  match hE : extractLong (meltRowsFrom t.rows 0 t.yearCols) with
  | some ls =>
    rw [hE] at h
    simp only [Option.map_some'] at h
    obtain rfl := Option.some_inj.mp h
    rfl
  | none =>
    rw [hE] at h
    simp at h

/-- Witness for C8 at a one-row table. -/
theorem C8_witness :
    ((tinyTable, longTable tinyTable) : WTable × List LongRow).1 = tinyTable ∧
    (display_table_view tinyTable).1 = tinyTable ∧
    (plot_yoy_line_chart_st ([] : List LongRow)).1 = [] ∧
    (plot_yoy_heatmap_st tinyTable).1 = tinyTable ∧
    (plot_avg_bar_chart_st tinyTable).1 = tinyTable :=
  C8_no_mutation tinyTable (tinyTable, longTable tinyTable) tinyTable [] (by decide)

/-- C9: a year column whose label lacks `YoY` is excluded from the
formatted and gradient columns of the table view, from the heatmap
columns and from the bar-chart average, while its values still reach the
long table and hence the line chart. -/
theorem C9_yoy_column_selection (t : WTable) (j : Nat) (h : j < t.yearCols.length)
    (hext : ∀ c ∈ t.yearCols, (extractYearNat c).isSome = true)
    (hno : containsYoY (t.yearCols.get ⟨j, h⟩) = false) :
    t.yearCols.get ⟨j, h⟩ ∉ yoyColsOf t ∧
    j ∉ yoyIdx t ∧
    process_data t = some (t, longTable t) ∧
    (∀ r ∈ t.rows, mkLong (t.yearCols.get ⟨j, h⟩) j r ∈ longTable t) ∧
    (t.rows ≠ [] → plot_yoy_line_chart (longTable t) = ChartOut.chart (longTable t)) := by
  refine ⟨?_, ?_, process_data_eq t hext, ?_, ?_⟩
  · intro hmem
    rw [yoyColsOf] at hmem
    have := (List.mem_filter.mp hmem).2
    rw [hno] at this
    exact Bool.false_ne_true this
  · intro hmem
    obtain ⟨i, hi, hji, hci⟩ := mem_yoyIdxFrom t.yearCols 0 j hmem
    have hij : i = j := by omega
    subst hij
    have hcontra : (true : Bool) = false := hci.symm.trans hno
    simp at hcontra
  · intro r hr
    have := meltFrom_mem t.rows r hr t.yearCols 0 j h
    rwa [Nat.zero_add] at this
  · intro hne
    rw [plot_yoy_line_chart, if_neg]
    intro hlen
    rw [longTable, meltFrom_length] at hlen
    rcases Nat.mul_eq_zero.mp hlen with h0 | h0
    · omega
    · exact hne (List.length_eq_zero.mp h0)

/-- Witness for C9 at a table with a `2007 note` column. -/
theorem C9_witness :
    (extraColTable.yearCols.get ⟨1, by decide⟩ ∉ yoyColsOf extraColTable) ∧
    (1 ∉ yoyIdx extraColTable) ∧
    process_data extraColTable = some (extraColTable, longTable extraColTable) ∧
    (∀ r ∈ extraColTable.rows,
      mkLong (extraColTable.yearCols.get ⟨1, by decide⟩) 1 r ∈
        longTable extraColTable) := by
  have h := C9_yoy_column_selection extraColTable 1 (by decide) (by decide) (by decide)
  exact ⟨h.1, h.2.1, h.2.2.1, h.2.2.2.1⟩

/-- C10: whenever the workbook holds a sheet named
`YoY_Health_Expenditure`, `load_data` returns that sheet as is, with no
validation of its header or rows and no error. -/
theorem C10_loader_no_validation (wb : Workbook) (s : Sheet)
    (h : wb.sheets.lookup "YoY_Health_Expenditure" = some s) :
    load_data (some wb) = LoadResult.loaded s := by
  rw [load_data, h]

/-- Witness for C10 at a workbook whose required sheet lacks both
identifier columns. -/
theorem C10_witness :
    load_data (some wbBad) = LoadResult.loaded ⟨["Foo"], [[Cell.num (mkRat 1 1)]]⟩ :=
  C10_loader_no_validation wbBad ⟨["Foo"], [[Cell.num (mkRat 1 1)]]⟩ (by decide)

end HealthExp
